import Mathlib

/-!
# Verification of the MassGen MCP handler (`src/massgen/mcp_tools/mcp_handler.py`)

Shallow embedding of the resilient tool-execution and streaming-recursion
layer implemented by `MCPHandler`.  Pure data manipulation is translated
directly; the asynchronous generators are modelled as functions returning the
list of chunks they yield; external collaborators that live outside the
repository snapshot (`backend_utils`: normalisation, circuit-breaker
filtering, the execution manager, JSON parsing, message trimming) are
environment parameters supplied to the model.
-/

namespace MCPHandlerModel

/-- Model of `StreamChunk` (only the fields the handler constructs/reads:
`type`, `status`, `content`, `source`; absent keyword arguments are `none`). -/
structure StreamChunk where
  type : String
  status : Option String := none
  content : Option String := none
  source : Option String := none
deriving DecidableEq, Repr

/-- The terminal marker `StreamChunk(type="done")`. -/
def doneChunk : StreamChunk := { type := "done" }

/-- Model of a tool definition dictionary as used by the fallback /
coordination filtering code: only `"type"` and `"name"` keys are ever read
(`tool.get("type")`, `tool.get("name")`), both possibly absent. -/
structure Tool where
  type : Option String := none
  name : Option String := none
deriving DecidableEq, Repr

/-- Model of Python `str.lower()` (character-wise ASCII lowercasing; the
coordination-tool names compared against are ASCII). -/
def lowerString (s : String) : String :=
  ⟨s.data.map Char.toLower⟩

/-- `MCPHandler._is_coordination_tool`: `tool_name.lower() in {"vote", "new_answer"}`. -/
def is_coordination_tool (tool_name : String) : Bool :=
  lowerString tool_name == "vote" || lowerString tool_name == "new_answer"

/-- `MCPHandler._should_preserve_coordination_tool`. -/
def should_preserve_coordination_tool (tool_name : String)
    (original_tools : List Tool) (existing_answers_available : Bool)
    (_is_final_agent : Bool) : Bool :=
  if !(is_coordination_tool tool_name) then
    false
  else if !(original_tools.map (fun t => t.name.getD "")).contains tool_name then
    false
  else if existing_answers_available then
    lowerString tool_name == "vote"
  else
    lowerString tool_name == "new_answer"

/-- `MCPHandler._filter_coordination_tools_for_context`: partition
`current_tools` into coordination tools and others, keep a coordination tool
only when `_should_preserve_coordination_tool` holds, and return
`other_tools + filtered_coordination_tools` (or `current_tools` unchanged when
no coordination tool is present). -/
def filter_coordination_tools_for_context (current_tools : List Tool)
    (original_tools : List Tool) (existing_answers_available : Bool)
    (is_final_agent : Bool) : List Tool :=
  let coordination_tools :=
    current_tools.filter (fun t => is_coordination_tool (t.name.getD ""))
  let other_tools :=
    current_tools.filter (fun t => !(is_coordination_tool (t.name.getD "")))
  if coordination_tools.isEmpty then
    current_tools
  else
    other_tools ++ coordination_tools.filter (fun t =>
      should_preserve_coordination_tool (t.name.getD "") original_tools
        existing_answers_available is_final_agent)

/-- Model of the API-parameter dictionary: the handler only ever touches the
`"tools"` key (`none` = key absent); all other entries are copied verbatim by
`dict(api_params)` and never touched. -/
structure ApiParams where
  tools : Option (List Tool) := none
deriving DecidableEq, Repr

/-- `tool.get("name") not in functions` — a `None` name is never a registry key. -/
def nameNotRegistered (functions : List String) (t : Tool) : Bool :=
  match t.name with
  | some n => !(functions.contains n)
  | none => true

/-- First strip of `handle_mcp_error_and_fallback` (lines 687–691): if a
`"tools"` key is present, drop every tool with `type == "mcp"`. -/
def strip_mcp_typed (fp : ApiParams) : ApiParams :=
  match fp.tools with
  | some ts => { fp with tools := some (ts.filter (fun t => !(t.type == some "mcp"))) }
  | none => fp

/-- Second strip (lines 693–701): if a `"tools"` key is present, drop every
tool whose name is a key of the functions registry. -/
def strip_registered (functions : List String) (fp : ApiParams) : ApiParams :=
  match fp.tools with
  | some ts => { fp with tools := some (ts.filter (nameNotRegistered functions)) }
  | none => fp

/-- Coordination filtering step (lines 703–711): applied only in a
multi-agent context with a truthy (non-`None`, non-empty) `original_tools`;
reads `fallback_params.get("tools", [])` and stores the filtered list. -/
def apply_coordination_step (fp : ApiParams) (is_multi_agent_context : Bool)
    (original_tools : Option (List Tool)) (existing_answers_available : Bool)
    (is_final_agent : Bool) : ApiParams :=
  if is_multi_agent_context &&
      (match original_tools with
        | some l => !l.isEmpty
        | none => false) then
    { fp with tools := some (filter_coordination_tools_for_context
        (fp.tools.getD []) (original_tools.getD [])
        existing_answers_available is_final_agent) }
  else fp

/-- Provider-tool re-attachment (lines 713–728): when `provider_tools` is
non-empty, create the `"tools"` key if missing, then extend it with the
provider tools not already present, de-duplicated by `(type, name)`. -/
def reattach_provider_tools (fp : ApiParams) (provider_tools : List Tool) : ApiParams :=
  if !provider_tools.isEmpty then
    let cur := fp.tools.getD []
    let existing := cur.map (fun t => (t.type, t.name))
    let dedup := provider_tools.filter (fun t => !(existing.contains (t.type, t.name)))
    { fp with tools := some (cur ++ dedup) }
  else fp

/-- The fallback-parameter rebuild performed by
`MCPHandler.handle_mcp_error_and_fallback` (lines 683–728): strip tools with
`type == "mcp"`, strip tools whose name is in the functions registry, apply
the coordination filter in a multi-agent context with truthy
`original_tools`, then re-attach `provider_tools` de-duplicated by
`(type, name)`. -/
def build_fallback_params (functions : List String) (api_params : ApiParams)
    (provider_tools : List Tool) (is_multi_agent_context : Bool)
    (is_final_agent : Bool) (original_tools : Option (List Tool))
    (existing_answers_available : Bool) : ApiParams :=
  reattach_provider_tools
    (apply_coordination_step (strip_registered functions (strip_mcp_typed api_params))
      is_multi_agent_context original_tools existing_answers_available is_final_agent)
    provider_tools

/-- `MCPHandler.handle_mcp_error_and_fallback` modelled as the list of chunks
the async generator yields, paired with the updated `_mcp_tool_failures`
counter.  `user_message` and `error_text` stand for the outputs of the
external `MCPErrorHandler.get_error_details` and `str(error)`; `stream_func`
is the backend fallback streaming callback. -/
def handle_mcp_error_and_fallback (failures : Nat) (user_message error_text : String)
    (functions : List String) (api_params : ApiParams) (provider_tools : List Tool)
    (stream_func : ApiParams → List StreamChunk)
    (is_multi_agent_context : Bool) (is_final_agent : Bool)
    (original_tools : Option (List Tool)) (existing_answers_available : Bool) :
    Nat × List StreamChunk :=
  (failures + 1,
    { type := "mcp_status", status := some "mcp_error",
      content := some user_message, source := some "mcp_error" } ::
    { type := "content",
      content := some ("\n⚠️  " ++ user_message ++ " (" ++ error_text ++
        "); continuing without MCP tools\n") } ::
    stream_func (build_fallback_params functions api_params provider_tools
      is_multi_agent_context is_final_agent original_tools
      existing_answers_available))

/-! ## Setup coordinator (`setup_mcp_tools`, lines 107–254) -/

/-- The members of the `MCPState` enum referenced by the handler
(`backend_utils.MCPState`, outside the snapshot; only these two members are
used by `mcp_handler.py`). -/
inductive MCPState where
  | NOT_INITIALIZED
  | READY
deriving DecidableEq, Repr

/-- A server descriptor; the handler only ever reads `server.get("name", "")`. -/
structure Server where
  name : String
deriving DecidableEq, Repr

/-- The backend-held session state read and written by the handler:
`_mcp_state`, `_mcp_permanently_blocked`, the one-shot notification flags,
`_servers_signature`, the `functions` registry (modelled by its key set),
`_mcp_client` (modelled by presence) and `_last_mcp_servers_used`. -/
structure SessionState where
  mcp_state : MCPState := .NOT_INITIALIZED
  permanently_blocked : Bool := false
  cb_notified : Bool := false
  conn_failure_notified : Bool := false
  servers_signature : Option (List String) := none
  functions : List String := []
  has_client : Bool := false
  last_used : List Server := []
deriving DecidableEq, Repr

/-- Insertion of a string into a sorted list using the `Ord String` order,
used to model Python `sorted` on the server names. -/
def insertSorted (x : String) : List String → List String
  | [] => [x]
  | y :: ys =>
    match compare x y with
    | .gt => y :: insertSorted x ys
    | _ => x :: y :: ys

/-- Model of `tuple(sorted(names))`: a deterministic ascending sort. -/
def sortStrings : List String → List String
  | [] => []
  | x :: xs => insertSorted x (sortStrings xs)

/-- Outcome of one `_attempt_mcp_setup` connection attempt, abstracting the
external `MCPResourceManager.setup_mcp_client` /
`convert_tools_to_functions`: the client came back falsy, the attempt raised,
or it succeeded and discovered the given tool names. -/
inductive AttemptOutcome where
  | clientNone
  | raisedExc
  | success (newFuncs : List String)
deriving DecidableEq, Repr

/-- Environment for a setup invocation: the backend configuration together
with the external collaborators (`normalize_mcp_servers`,
`separate_stdio_streamable_servers`, circuit-breaker presence/threshold and
its per-attempt filtering, and each attempt's connection outcome). -/
structure SetupEnv where
  mcp_servers : List Server
  normalize : List Server → List Server
  separate : List Server → List Server
  cb_enabled : Bool
  cb_present : Bool
  max_failures : Nat
  cbFilter : Nat → List Server → List Server
  attemptOutcome : Nat → AttemptOutcome

/-- Result of a setup invocation: the new session state plus the number of
connection attempts (`_attempt_mcp_setup` invocations) performed. -/
structure SetupOut where
  st : SessionState
  attempts : Nat
deriving DecidableEq, Repr

/-- `MCPHandler.cleanup_mcp`: when a client exists, disconnect it, clear it,
reset `_mcp_state` to `NOT_INITIALIZED` and empty the functions registry. -/
def cleanup_mcp (st : SessionState) : SessionState :=
  if st.has_client then
    { st with has_client := false, mcp_state := .NOT_INITIALIZED, functions := [] }
  else st

/-- Python `dict.update` on the functions registry, as an effect on key sets:
existing keys stay, new keys are appended. -/
def mergeNames (old new : List String) : List String :=
  old ++ new.filter (fun n => !(old.contains n))

/-- `MCPHandler._attempt_mcp_setup` (lines 256–363): records the attempted
server list in `_last_mcp_servers_used`, then either fails (falsy client —
with the one-shot connection-failure notification — or an exception caught
inside the attempt) or succeeds, updating the registry, the client and
setting `_mcp_state = READY`. -/
def attempt_mcp_setup (env : SetupEnv) (attempt : Nat) (filtered : List Server)
    (st : SessionState) : SessionState × Bool :=
  let st := { st with last_used := filtered }
  match env.attemptOutcome attempt with
  | .raisedExc => (st, false)
  | .clientNone =>
    (if !st.conn_failure_notified then { st with conn_failure_notified := true } else st,
      false)
  | .success newFuncs =>
    ({ st with
        functions := mergeNames st.functions newFuncs,
        has_client := true,
        mcp_state := .READY }, true)

/-- The circuit-breaker-coordinated attempt loop of `setup_mcp_tools`
(lines 178–220), with `remaining` the number of loop iterations left
(`max_failures - attempt + 1`).  Returns the state and the number of
connection attempts made. -/
def setupLoop (env : SetupEnv) (servers : List Server) :
    Nat → Nat → SessionState → SetupOut
  | _, 0, st => { st := st, attempts := 0 }
  | attempt, remaining + 1, st =>
    let filtered := env.cbFilter attempt servers
    if filtered.isEmpty then
      let st := if !st.cb_notified then { st with cb_notified := true } else st
      let st :=
        if env.max_failures ≤ attempt then { st with permanently_blocked := true } else st
      { st := st, attempts := 0 }
    else
      match attempt_mcp_setup env attempt filtered st with
      | (st, true) => { st := st, attempts := 1 }
      | (st, false) =>
        if env.max_failures ≤ attempt then
          { st := { st with permanently_blocked := true }, attempts := 1 }
        else
          let r := setupLoop env servers (attempt + 1) remaining st
          { st := r.st, attempts := r.attempts + 1 }

/-- `MCPHandler.setup_mcp_tools` (lines 107–254): early returns for no
configured servers, `READY` state or permanent block; signature computation
and drift-triggered teardown; transport separation; then either the
circuit-breaker attempt loop or a single uncoordinated attempt. -/
def setup_mcp_tools (env : SetupEnv) (st : SessionState) : SetupOut :=
  if env.mcp_servers.isEmpty then { st := st, attempts := 0 }
  else if st.mcp_state = .READY then { st := st, attempts := 0 }
  else if st.permanently_blocked then { st := st, attempts := 0 }
  else
    let normalized := env.normalize env.mcp_servers
    let newSig := sortStrings (normalized.map (fun s => s.name))
    if st.servers_signature = some newSig ∧ st.mcp_state = .READY then
      { st := st, attempts := 0 }
    else
      let st :=
        if st.servers_signature ≠ some newSig then
          let st := { st with
              servers_signature := some newSig,
              mcp_state := .NOT_INITIALIZED }
          if st.has_client then cleanup_mcp st else st
        else st
      let mcp_tools_servers := env.separate normalized
      if mcp_tools_servers.isEmpty then { st := st, attempts := 0 }
      else if env.cb_enabled && env.cb_present then
        setupLoop env mcp_tools_servers 1 env.max_failures st
      else
        let r := attempt_mcp_setup env 1 mcp_tools_servers st
        { st := r.1, attempts := 1 }

/-! ## Execution with retry (`execute_mcp_function_with_retry`, lines 871–935)
and the streaming recursion engine (`execute_mcp_functions_and_recurse`,
lines 365–628). -/

/-- Result of the external `MCPExecutionManager.execute_function_with_retry`
(in `backend_utils`, outside the snapshot): it raised, returned a dict with
an `"error"` key, or returned a value (with `value` its `str()` rendering and
`pretty` the `result_obj.content[0].text` rendering the engine prints). -/
inductive MgrResult where
  | raised
  | errDict (msg : String)
  | value (s pretty : String)
deriving DecidableEq, Repr

/-- Outcome of `execute_mcp_function_with_retry` as observed by the caller:
either the whole call raised, or it returned the result pair; `resultStr` is
the string rendering, `pretty` the printable result text, `isErrObj` whether
the returned object is the error dictionary, and `mgrCalled` whether the
underlying execution manager was invoked at all. -/
inductive RetryOut where
  | raised
  | res (resultStr pretty : String) (isErrObj mgrCalled : Bool)
deriving DecidableEq, Repr

/-- `MCPHandler.execute_mcp_function_with_retry` (lines 871–935): parse the
JSON argument payload (`parse` models `json.loads`, generic in the parsed
value type `J`); a parse failure returns the structured
`"Error: Invalid JSON arguments: …"` result immediately, without touching the
execution manager; otherwise delegate to the manager and convert an
error-dict result to an `"Error: …"`-prefixed string. -/
def execute_mcp_function_with_retry {J : Type} (parse : String → Except String J)
    (mgr : String → J → MgrResult) (name args : String) : RetryOut :=
  match parse args with
  | .error e =>
    .res ("Error: Invalid JSON arguments: " ++ e)
      ("Error: Invalid JSON arguments: " ++ e) true false
  | .ok v =>
    match mgr name v with
    | .raised => .raised
    | .errDict m => .res ("Error: " ++ m) ("Error: " ++ m) true true
    | .value s p => .res s p false true

/-- A conversation-history message as appended by the engine: an ordinary
message, a function-call record, a function-output record, or a
backend-formatted result message. -/
inductive Msg where
  | other (payload : String)
  | functionCall (callId name args : String)
  | functionOutput (callId output : String)
  | formatted (payload : String)
deriving DecidableEq, Repr

/-- A captured function call: `call_id`, `name` and the raw JSON `arguments`. -/
structure FCall where
  callId : String
  name : String
  arguments : String
deriving DecidableEq, Repr

/-- What one opened backend stream amounts to once scanned by the
detect/process callbacks: the chunks forwarded (processed, non-consumed), the
presence of an explicit `response.completed` signal, and the function calls
captured during the scan. -/
structure Round where
  forwarded : List StreamChunk
  completed : Bool
  captured : List FCall
deriving Repr

/-- Environment of the streaming recursion engine: the functions registry
(key set), the argument parser and execution manager behind
`execute_mcp_function_with_retry`, the optional result-formatting callback,
circuit-breaker state (`cbFilterEmpty d` = the re-filtering at recursion
depth `d` came back empty), whether the four required callbacks were
provided, the optional fallback streaming callback, the backend stream
behaviour per depth and history, and the external history trimmer. -/
structure EngineEnv (J : Type) where
  functions : List String
  parse : String → Except String J
  mgr : String → J → MgrResult
  format : FCall → String → Option Msg
  cbEnabled : Bool
  cbFilterEmpty : Nat → Bool
  callbacksProvided : Bool
  fallback : Option (List Msg → List FCall → List StreamChunk)
  round : Nat → List Msg → Round
  trim : List Msg → List Msg

/-- The one-shot "all blocked" chunk yielded by the engine. -/
def blockedChunk : StreamChunk :=
  { type := "mcp_status", status := some "mcp_blocked",
    content := some "⚠️ [MCP] All servers blocked by circuit breaker",
    source := some "circuit_breaker" }

/-- The "session complete" chunk yielded before the terminal `done`. -/
def sessionCompleteChunk : StreamChunk :=
  { type := "mcp_status", status := some "mcp_session_complete",
    content := some "✅ [MCP] Session completed", source := some "mcp_session" }

/-- Per-session engine state threaded through the recursion: the one-shot
`_mcp_circuit_breaker_notified` flag. -/
structure EngSt where
  cbNotified : Bool := false
deriving DecidableEq, Repr

/-- Output of processing one known captured call (the body of the execution
loop, lines 463–545): the updated history, the yielded chunks, the names for
which the execution manager was invoked, and whether the call completed
successfully (`mcp_functions_executed`). -/
structure CallOut where
  msgs : List Msg
  chunks : List StreamChunk
  trace : List String
  executed : Bool
deriving Repr

/-- One iteration of the captured-call execution loop: yield the
`mcp_tool_called` chunk, run `execute_mcp_function_with_retry`; on a raised
exception or an `"Error:"`-prefixed result, skip to the next call; otherwise
append the call record, yield the arguments chunk, append the (formatted or
default) output record, yield the result and completion chunks. -/
def perCallExec {J : Type} (env : EngineEnv J) (call : FCall) (msgs : List Msg) :
    CallOut :=
  let callChunk : StreamChunk :=
    { type := "mcp_status", status := some "mcp_tool_called",
      content := some ("🔧 [MCP Tool] Calling " ++ call.name ++ "..."),
      source := some ("mcp_" ++ call.name) }
  match execute_mcp_function_with_retry env.parse env.mgr call.name call.arguments with
  | .raised => { msgs := msgs, chunks := [callChunk], trace := [call.name], executed := false }
  | .res r p _ mgrCalled =>
    let tr := if mgrCalled then [call.name] else []
    if "Error:".isPrefixOf r then
      { msgs := msgs, chunks := [callChunk], trace := tr, executed := false }
    else
      let msgs := msgs ++ [Msg.functionCall call.callId call.name call.arguments]
      let outMsg := (env.format call r).getD (Msg.functionOutput call.callId r)
      let msgs := msgs ++ [outMsg]
      { msgs := msgs,
        chunks := [callChunk,
          { type := "mcp_status", status := some "function_call",
            content := some ("Arguments for Calling " ++ call.name ++ ": " ++ call.arguments),
            source := some ("mcp_" ++ call.name) },
          { type := "mcp_status", status := some "function_call_output",
            content := some ("Results for Calling " ++ call.name ++ ": " ++ p),
            source := some ("mcp_" ++ call.name) },
          { type := "mcp_status", status := some "mcp_tool_response",
            content := some ("✅ [MCP Tool] " ++ call.name ++ " completed"),
            source := some ("mcp_" ++ call.name) }],
        trace := tr, executed := true }

/-- The captured-call execution loop (lines 462–545): calls whose name is not
in the registry are skipped by the loop guard (unreachable after the
unknown-name check), the rest are processed in order by `perCallExec`. -/
def execBatch {J : Type} (env : EngineEnv J) : List FCall → List Msg → CallOut
  | [], msgs => { msgs := msgs, chunks := [], trace := [], executed := false }
  | c :: rest, msgs =>
    if env.functions.contains c.name then
      let o1 := perCallExec env c msgs
      let o2 := execBatch env rest o1.msgs
      { msgs := o2.msgs, chunks := o1.chunks ++ o2.chunks,
        trace := o1.trace ++ o2.trace, executed := o1.executed || o2.executed }
    else
      execBatch env rest msgs

/-- Result of a (terminating) engine run: the final engine state, the full
list of yielded chunks and the manager-invocation trace. -/
structure EngOut where
  st : EngSt
  chunks : List StreamChunk
  trace : List String
deriving Repr

/-- Phase 1 of `execute_mcp_functions_and_recurse` (lines 404–551): with a
non-empty captured batch, either finish the turn early (`Sum.inl`: unknown
names delegated to the fallback callback or a lone `done`; circuit-breaker
block), or execute the batch, trim the history when something ran, and hand
the accumulated chunks/trace/history to the streaming phase (`Sum.inr`). -/
def enginePhase1 {J : Type} (env : EngineEnv J) (depth : Nat) (st : EngSt)
    (messages : List Msg) (captured : List FCall) :
    EngOut ⊕ (EngSt × List StreamChunk × List String × List Msg) :=
  if captured.isEmpty then .inr (st, [], [], messages)
  else
    let nonMcp := captured.filter (fun c => !(env.functions.contains c.name))
    if !nonMcp.isEmpty then
      match env.fallback with
      | some fb => .inl { st := st, chunks := fb messages nonMcp, trace := [] }
      | none => .inl { st := st, chunks := [doneChunk], trace := [] }
    else if env.cbEnabled && env.cbFilterEmpty depth then
      if st.cbNotified then .inl { st := st, chunks := [doneChunk], trace := [] }
      else .inl { st := { cbNotified := true }, chunks := [blockedChunk, doneChunk], trace := [] }
    else
      let o := execBatch env captured messages
      .inr (st, o.chunks, o.trace, if o.executed then env.trim o.msgs else o.msgs)

/-- `MCPHandler.execute_mcp_functions_and_recurse` (lines 365–628), with
`fuel` bounding the recursion depth (the real generator recurses unboundedly
on backend-captured calls; `none` models an interaction still running at that
bound).  Phase 1 handles a non-empty captured batch; phase 2 requires the
four mandatory callbacks, opens a stream, forwards its chunks and either
recurses on newly captured calls (the source's recursive call omits the
fallback callback), finishes with `mcp_session_complete` + `done`, or — when
the stream ended with no completion signal — yields the safety-net `done`. -/
def engineRun {J : Type} (env : EngineEnv J) :
    Nat → Nat → EngSt → List Msg → List FCall → Option EngOut
  | 0, _, _, _, _ => none
  | fuel + 1, depth, st, messages, captured =>
    match enginePhase1 env depth st messages captured with
    | .inl r => some r
    | .inr (st1, preChunks, trace1, msgs1) =>
      if !env.callbacksProvided then
        some { st := st1, chunks := preChunks ++ [doneChunk], trace := trace1 }
      else
        let rd := env.round depth msgs1
        if rd.completed then
          if rd.captured.isEmpty then
            some
              { st := st1,
                chunks := preChunks ++ rd.forwarded ++ [sessionCompleteChunk, doneChunk],
                trace := trace1 }
          else
            match engineRun { env with fallback := none } fuel (depth + 1) st1 msgs1
                rd.captured with
            | none => none
            | some r =>
              some
                { st := r.st,
                  chunks := preChunks ++ rd.forwarded ++ r.chunks,
                  trace := trace1 ++ r.trace }
        else
          some
            { st := st1,
              chunks := preChunks ++ rd.forwarded ++ [doneChunk],
              trace := trace1 }

/-! ## Auxiliary definitions for the statements and concrete instances -/

/-- The execution-manager invocations caused by one captured call: the call's
name when the manager is reached, nothing when argument parsing already
failed. -/
def retryTrace {J : Type} (env : EngineEnv J) (c : FCall) : List String :=
  match execute_mcp_function_with_retry env.parse env.mgr c.name c.arguments with
  | .raised => [c.name]
  | .res _ _ _ mgrCalled => if mgrCalled then [c.name] else []

/-- A chunk list that ends with the terminal `done` marker, with no `done`
and hence no further chunk after it. -/
def terminatesWithDone (l : List StreamChunk) : Prop :=
  ∃ pre, l = pre ++ [doneChunk] ∧ doneChunk ∉ pre

/-- The state after the configuration-drift check of `setup_mcp_tools`
(lines 147–156): when the stored signature differs from the newly computed
one, store the new signature, reset the state to `NOT_INITIALIZED` and clean
up any existing client. -/
def resetOnDrift (env : SetupEnv) (st : SessionState) : SessionState :=
  let newSig := sortStrings ((env.normalize env.mcp_servers).map (fun s => s.name))
  if st.servers_signature ≠ some newSig then
    let st' := { st with
        servers_signature := some newSig,
        mcp_state := .NOT_INITIALIZED }
    if st'.has_client then cleanup_mcp st' else st'
  else st

/-- A freshly initialised session (all backend attributes at their
`getattr` defaults). -/
def freshSession : SessionState := {}

/-- Concrete setup environment for the all-blocked scenario: two configured
servers, identity normalisation/separation, an enabled circuit breaker with
`max_failures = 2` whose filtering rejects every candidate on every attempt. -/
def envAllBlocked : SetupEnv :=
  { mcp_servers := [⟨"alpha"⟩, ⟨"beta"⟩],
    normalize := fun l => l,
    separate := fun l => l,
    cb_enabled := true,
    cb_present := true,
    max_failures := 2,
    cbFilter := fun _ _ => [],
    attemptOutcome := fun _ => .raisedExc }

/-- A `READY` session built from a server named `"alpha"` (stored signature
`["alpha"]`), holding a live client and a one-entry registry. -/
def readySessionAlpha : SessionState :=
  { mcp_state := .READY,
    servers_signature := some ["alpha"],
    functions := ["alpha_tool"],
    has_client := true }

/-- Concrete setup environment whose configured servers normalise to the
signature `["beta"]` — configuration drift relative to
`readySessionAlpha` — with working filtering and a succeeding connection. -/
def envDrifted : SetupEnv :=
  { mcp_servers := [⟨"beta"⟩],
    normalize := fun l => l,
    separate := fun l => l,
    cb_enabled := true,
    cb_present := true,
    max_failures := 3,
    cbFilter := fun _ s => s,
    attemptOutcome := fun _ => .success ["beta_tool"] }

/-- Concrete setup environment whose configured servers normalise to the
signature `["alpha"]`, matching `readySessionAlpha`. -/
def envAlpha : SetupEnv :=
  { mcp_servers := [⟨"alpha"⟩],
    normalize := fun l => l,
    separate := fun l => l,
    cb_enabled := true,
    cb_present := true,
    max_failures := 3,
    cbFilter := fun _ s => s,
    attemptOutcome := fun _ => .success ["alpha_tool"] }

/-- Concrete engine environment with a one-entry registry, a parser that only
accepts `"ok"`, a fallback callback producing a single recognisable chunk,
and a backend that immediately completes with no captured calls. -/
def envEngine : EngineEnv Unit :=
  { functions := ["lookup"],
    parse := fun s => if s = "ok" then .ok () else .error "bad",
    mgr := fun _ _ => .value "42" "42",
    format := fun _ _ => none,
    cbEnabled := false,
    cbFilterEmpty := fun _ => false,
    callbacksProvided := true,
    fallback := some (fun _ _ => [{ type := "fallback_marker", content := some "delegated" }]),
    round := fun _ _ => { forwarded := [], completed := true, captured := [] },
    trim := fun m => m }

/-- `envEngine` without a fallback callback. -/
def envEngineNoFb : EngineEnv Unit :=
  { envEngine with fallback := none }

/-! ## Theorems -/

/-- A permanently blocked session makes `setup_mcp_tools` a no-op
(line 127's early return; the `READY` early return also yields a no-op). -/
theorem setup_noop_of_blocked (env : SetupEnv) (st : SessionState)
    (h : st.permanently_blocked = true) :
    setup_mcp_tools env st = { st := st, attempts := 0 } := by
  simp [setup_mcp_tools, h]

/-- **C7**: calling setup when the session is already `READY` with an
unchanged server signature, or when it is permanently blocked, is a no-op:
no connection attempts are made and the whole session state (client,
registry, signature, state value) is returned unchanged. -/
theorem C7_setup_ready_or_blocked_noop (env : SetupEnv) (st : SessionState)
    (h : (st.mcp_state = MCPState.READY ∧
        st.servers_signature =
          some (sortStrings ((env.normalize env.mcp_servers).map (fun s => s.name)))) ∨
      st.permanently_blocked = true) :
    setup_mcp_tools env st = { st := st, attempts := 0 } := by
  rcases h with ⟨hready, _⟩ | hblocked
  · simp [setup_mcp_tools, hready]
  · exact setup_noop_of_blocked env st hblocked

/-- Witness for C7: a concrete `READY` session with matching signature is
left untouched with zero connection attempts. -/
theorem C7_setup_ready_or_blocked_noop_witness :
    setup_mcp_tools envAlpha readySessionAlpha =
      { st := readySessionAlpha, attempts := 0 } :=
  C7_setup_ready_or_blocked_noop envAlpha readySessionAlpha (Or.inl ⟨rfl, by decide⟩)

/-- **C2** (code bug): the session is `READY` under stored signature
`["alpha"]` while the configured servers now normalise to the different
signature `["beta"]`; the claimed teardown + reset to Uninitialized does not
happen — `setup_mcp_tools` returns at the early `READY` check (line 123)
with the state, stale signature, client and registry untouched and zero
connection attempts. -/
theorem C2_drifted_ready_setup_is_noop :
    readySessionAlpha.servers_signature ≠
      some (sortStrings ((envDrifted.normalize envDrifted.mcp_servers).map
        (fun s => s.name))) ∧
    setup_mcp_tools envDrifted readySessionAlpha =
      { st := readySessionAlpha, attempts := 0 } ∧
    (setup_mcp_tools envDrifted readySessionAlpha).st.mcp_state = MCPState.READY ∧
    (setup_mcp_tools envDrifted readySessionAlpha).st.has_client = true := by
  refine ⟨by decide, by decide, by decide, by decide⟩

/-- **C1** (counterexample): `max_failures = 2` and the breaker filtering
rejects every candidate on every attempt; each setup invocation stops after
its first filtering check, so even after three invocations the session has
not transitioned to `PermanentlyBlocked`. -/
theorem C1_counterexample :
    envAllBlocked.max_failures = 2 ∧
    (setup_mcp_tools envAllBlocked freshSession).st.permanently_blocked = false ∧
    (setup_mcp_tools envAllBlocked
        (setup_mcp_tools envAllBlocked freshSession).st).st.permanently_blocked = false ∧
    (setup_mcp_tools envAllBlocked
        (setup_mcp_tools envAllBlocked
          (setup_mcp_tools envAllBlocked freshSession).st).st).st.permanently_blocked
      = false := by
  decide

/-- `resetOnDrift` always leaves the freshly computed signature in place. -/
theorem resetOnDrift_servers_signature (env : SetupEnv) (st : SessionState) :
    (resetOnDrift env st).servers_signature =
      some (sortStrings ((env.normalize env.mcp_servers).map (fun s => s.name))) := by
  unfold resetOnDrift
  by_cases hsig : st.servers_signature =
      some (sortStrings ((env.normalize env.mcp_servers).map (fun s => s.name)))
  · simp [hsig]
  · simp [hsig, cleanup_mcp]
    split <;> simp

/-- `resetOnDrift` never produces a `READY` state from a non-`READY` one. -/
theorem resetOnDrift_mcp_state_ne_ready (env : SetupEnv) (st : SessionState)
    (h : st.mcp_state ≠ MCPState.READY) :
    (resetOnDrift env st).mcp_state ≠ MCPState.READY := by
  unfold resetOnDrift
  by_cases hsig : st.servers_signature =
      some (sortStrings ((env.normalize env.mcp_servers).map (fun s => s.name)))
  · simpa [hsig] using h
  · simp [hsig, cleanup_mcp]
    split <;> simp

/-- `resetOnDrift` does not touch the permanent-block flag. -/
theorem resetOnDrift_permanently_blocked (env : SetupEnv) (st : SessionState) :
    (resetOnDrift env st).permanently_blocked = st.permanently_blocked := by
  unfold resetOnDrift
  by_cases hsig : st.servers_signature =
      some (sortStrings ((env.normalize env.mcp_servers).map (fun s => s.name)))
  · simp [hsig]
  · simp [hsig, cleanup_mcp]
    split <;> simp

/-- When the stored signature already matches, `resetOnDrift` is the identity. -/
theorem resetOnDrift_of_sig_eq (env : SetupEnv) (st : SessionState)
    (h : st.servers_signature =
      some (sortStrings ((env.normalize env.mcp_servers).map (fun s => s.name)))) :
    resetOnDrift env st = st := by
  simp [resetOnDrift, h]

/-- Setting an already-set `cb_notified` flag is the identity. -/
theorem with_cb_notified_self (st : SessionState) (h : st.cb_notified = true) :
    ({ st with cb_notified := true } : SessionState) = st := by
  cases st
  simp_all

/-- All-blocked setup with `max_failures = 1`: the single filtering check
fails, the one-shot notification fires, the final (= first) attempt marks the
session permanently blocked, and no connection is attempted. -/
theorem setup_allblocked_eq_one (env : SetupEnv) (st : SessionState)
    (hcb1 : env.cb_enabled = true) (hcb2 : env.cb_present = true)
    (hmax : env.max_failures = 1)
    (hfilter : ∀ a s, env.cbFilter a s = [])
    (hsrv : env.mcp_servers.isEmpty = false)
    (hsep : (env.separate (env.normalize env.mcp_servers)).isEmpty = false)
    (hready : st.mcp_state ≠ MCPState.READY)
    (hblock : st.permanently_blocked = false) :
    setup_mcp_tools env st =
      { st := { resetOnDrift env st with
                  cb_notified := true,
                  permanently_blocked := true },
        attempts := 0 } := by
  have hsep' : env.separate (env.normalize env.mcp_servers) ≠ [] := by
    simpa using hsep
  obtain ⟨ms, pb, cbn, cfn, sig, fns, hc, lu⟩ := st
  by_cases hsig : sig =
      some (sortStrings ((env.normalize env.mcp_servers).map (fun s => s.name))) <;>
  by_cases hcl : hc <;>
  by_cases hnot : cbn <;>
  simp_all [setup_mcp_tools, resetOnDrift, cleanup_mcp, setupLoop]

/-- All-blocked setup with `max_failures ≥ 2`: the invocation stops after its
first filtering check with zero connection attempts, fires the one-shot
notification, and does **not** mark the session permanently blocked. -/
theorem setup_allblocked_eq_many (env : SetupEnv) (st : SessionState)
    (hcb1 : env.cb_enabled = true) (hcb2 : env.cb_present = true)
    (hmax : 2 ≤ env.max_failures)
    (hfilter : ∀ a s, env.cbFilter a s = [])
    (hsrv : env.mcp_servers.isEmpty = false)
    (hsep : (env.separate (env.normalize env.mcp_servers)).isEmpty = false)
    (hready : st.mcp_state ≠ MCPState.READY)
    (hblock : st.permanently_blocked = false) :
    setup_mcp_tools env st =
      { st := { resetOnDrift env st with cb_notified := true },
        attempts := 0 } := by
  obtain ⟨k, hk⟩ : ∃ k, env.max_failures = k + 2 := ⟨env.max_failures - 2, by omega⟩
  have hcond : ¬ (k + 2 ≤ 1) := by omega
  have hsep' : env.separate (env.normalize env.mcp_servers) ≠ [] := by
    simpa using hsep
  obtain ⟨ms, pb, cbn, cfn, sig, fns, hc, lu⟩ := st
  by_cases hsig : sig =
      some (sortStrings ((env.normalize env.mcp_servers).map (fun s => s.name))) <;>
  by_cases hcl : hc <;>
  by_cases hnot : cbn <;>
  simp_all [setup_mcp_tools, resetOnDrift, cleanup_mcp, setupLoop]

/-- **C1** (amended): for every setup invocation in which the circuit
breaker's filtering rejects every candidate server, the invocation stops
after its first filtering check with zero connection attempts and the
one-shot "all blocked" notification flag set; the session transitions to
PermanentlyBlocked during that invocation precisely when `maxFailures = 1`
(only then is the first attempt also the final one); and in every case the
next setup call leaves the resulting state unchanged — in particular, for
`maxFailures ≥ 2` the session never becomes PermanentlyBlocked, because the
attempt counter restarts at 1 on every invocation. -/
theorem C1_allblocked_amended (env : SetupEnv) (st : SessionState)
    (hcb1 : env.cb_enabled = true) (hcb2 : env.cb_present = true)
    (hmax : 1 ≤ env.max_failures)
    (hfilter : ∀ a s, env.cbFilter a s = [])
    (hsrv : env.mcp_servers.isEmpty = false)
    (hsep : (env.separate (env.normalize env.mcp_servers)).isEmpty = false)
    (hready : st.mcp_state ≠ MCPState.READY)
    (hblock : st.permanently_blocked = false) :
    (setup_mcp_tools env st).attempts = 0 ∧
    (setup_mcp_tools env st).st.cb_notified = true ∧
    ((setup_mcp_tools env st).st.permanently_blocked = true ↔ env.max_failures = 1) ∧
    setup_mcp_tools env ((setup_mcp_tools env st).st) =
      { st := (setup_mcp_tools env st).st, attempts := 0 } := by
  by_cases hm : env.max_failures = 1
  · have h1 := setup_allblocked_eq_one env st hcb1 hcb2 hm hfilter hsrv hsep hready hblock
    rw [h1]
    exact ⟨rfl, rfl, by simp [hm], setup_noop_of_blocked env _ rfl⟩
  · have hm2 : 2 ≤ env.max_failures := by omega
    have h1 := setup_allblocked_eq_many env st hcb1 hcb2 hm2 hfilter hsrv hsep hready hblock
    rw [h1]
    refine ⟨rfl, rfl, ?_, ?_⟩
    · simp [resetOnDrift_permanently_blocked, hblock, hm]
    · set st' : SessionState := { resetOnDrift env st with cb_notified := true } with hst'
      have hready' : st'.mcp_state ≠ MCPState.READY := by
        simpa [hst'] using resetOnDrift_mcp_state_ne_ready env st hready
      have hblock' : st'.permanently_blocked = false := by
        simp [hst', resetOnDrift_permanently_blocked, hblock]
      have h2 := setup_allblocked_eq_many env st' hcb1 hcb2 hm2 hfilter hsrv hsep
        hready' hblock'
      rw [h2]
      congr 1
      have hsig' : st'.servers_signature =
          some (sortStrings ((env.normalize env.mcp_servers).map (fun s => s.name))) := by
        simp [hst', resetOnDrift_servers_signature]
      rw [resetOnDrift_of_sig_eq env st' hsig']

/-- Witness for the amended C1 at the concrete all-blocked environment
(`max_failures = 2`, breaker filtering always empty, fresh session). -/
theorem C1_allblocked_amended_witness :
    (setup_mcp_tools envAllBlocked freshSession).attempts = 0 ∧
    (setup_mcp_tools envAllBlocked freshSession).st.cb_notified = true ∧
    ((setup_mcp_tools envAllBlocked freshSession).st.permanently_blocked = true ↔
      envAllBlocked.max_failures = 1) ∧
    setup_mcp_tools envAllBlocked ((setup_mcp_tools envAllBlocked freshSession).st) =
      { st := (setup_mcp_tools envAllBlocked freshSession).st, attempts := 0 } :=
  C1_allblocked_amended envAllBlocked freshSession rfl rfl (by decide)
    (fun _ _ => rfl) rfl rfl (by decide) rfl

/-- Any member of the rebuilt coordination-filtered tool list comes from the
input list, and whenever it is a coordination tool it passed
`_should_preserve_coordination_tool`. -/
theorem mem_filter_coordination (t : Tool) (cur orig : List Tool) (eav fin : Bool)
    (h : t ∈ filter_coordination_tools_for_context cur orig eav fin) :
    t ∈ cur ∧
    (is_coordination_tool (t.name.getD "") = true →
      should_preserve_coordination_tool (t.name.getD "") orig eav fin = true) := by
  by_cases hemp : (cur.filter (fun x => is_coordination_tool (x.name.getD ""))).isEmpty
  · rw [filter_coordination_tools_for_context, if_pos hemp] at h
    refine ⟨h, fun hc => False.elim ?_⟩
    have hnil : cur.filter (fun x => is_coordination_tool (x.name.getD "")) = [] := by
      simpa using hemp
    have hmem : t ∈ cur.filter (fun x => is_coordination_tool (x.name.getD "")) :=
      List.mem_filter.2 ⟨h, hc⟩
    rw [hnil] at hmem
    simp at hmem
  · rw [filter_coordination_tools_for_context, if_neg hemp] at h
    rcases List.mem_append.1 h with hother | hcoord
    · have := List.mem_filter.1 hother
      refine ⟨this.1, fun hc => ?_⟩
      simp [hc] at this
    · have h1 := List.mem_filter.1 hcoord
      have h2 := List.mem_filter.1 h1.1
      exact ⟨h2.1, fun _ => h1.2⟩

/-- A tool passing `_should_preserve_coordination_tool` was originally
available and matches the context: `vote` only when answers exist,
`new_answer` only when none do. -/
theorem should_preserve_spec (n : String) (orig : List Tool) (eav fin : Bool)
    (h : should_preserve_coordination_tool n orig eav fin = true) :
    n ∈ orig.map (fun o => o.name.getD "") ∧
    (eav = true → lowerString n = "vote") ∧
    (eav = false → lowerString n = "new_answer") := by
  unfold should_preserve_coordination_tool at h
  split_ifs at h with hco hcon heav
  · have hmem : n ∈ orig.map (fun o => o.name.getD "") := by
      simpa using hcon
    exact ⟨hmem, fun _ => by simpa using h, fun hf => by rw [hf] at heav; exact absurd heav (by simp)⟩
  · have hmem : n ∈ orig.map (fun o => o.name.getD "") := by
      simpa using hcon
    have hef : eav = false := by
      cases eav
      · rfl
      · exact absurd rfl heav
    exact ⟨hmem, fun ht => by rw [ht] at hef; exact absurd hef (by simp),
      fun _ => by simpa using h⟩

/-- **C4**: through the coordination-tool policy, with existing answers
available the rebuilt tool list never contains a `new_answer` tool (case
insensitively), without existing answers it never contains a `vote` tool,
and every coordination tool kept was named in the original, pre-filtering
tool set. -/
theorem C4_coordination_tool_policy (current original : List Tool) (eav fin : Bool) :
    (∀ t ∈ filter_coordination_tools_for_context current original true fin,
      lowerString (t.name.getD "") ≠ "new_answer") ∧
    (∀ t ∈ filter_coordination_tools_for_context current original false fin,
      lowerString (t.name.getD "") ≠ "vote") ∧
    (∀ t ∈ filter_coordination_tools_for_context current original eav fin,
      is_coordination_tool (t.name.getD "") = true →
      (t.name.getD "") ∈ original.map (fun o => o.name.getD "")) := by
  refine ⟨fun t ht => ?_, fun t ht => ?_, fun t ht hc => ?_⟩
  · intro hlow
    have hc : is_coordination_tool (t.name.getD "") = true := by
      simp [is_coordination_tool, hlow]
    have hsp := (mem_filter_coordination t current original true fin ht).2 hc
    have := (should_preserve_spec _ original true fin hsp).2.1 rfl
    rw [hlow] at this
    exact absurd this (by decide)
  · intro hlow
    have hc : is_coordination_tool (t.name.getD "") = true := by
      simp [is_coordination_tool, hlow]
    have hsp := (mem_filter_coordination t current original false fin ht).2 hc
    have := (should_preserve_spec _ original false fin hsp).2.2 rfl
    rw [hlow] at this
    exact absurd this (by decide)
  · have hsp := (mem_filter_coordination t current original eav fin ht).2 hc
    exact (should_preserve_spec _ original eav fin hsp).1

/-- Witness for C4, fully instantiated: with answers available the kept
`vote` tool is not a `new_answer` tool; without answers the kept mixed-case
`New_Answer` tool is not a `vote` tool; and the kept coordination tool was in
the original set. -/
theorem C4_coordination_tool_policy_witness :
    lowerString ((⟨some "function", some "vote"⟩ : Tool).name.getD "") ≠ "new_answer" ∧
    lowerString ((⟨some "function", some "New_Answer"⟩ : Tool).name.getD "") ≠ "vote" ∧
    ((⟨some "function", some "vote"⟩ : Tool).name.getD "") ∈
      ([⟨some "function", some "New_Answer"⟩, ⟨some "function", some "vote"⟩] :
        List Tool).map (fun o => o.name.getD "") := by
  have h := C4_coordination_tool_policy
    [⟨some "function", some "New_Answer"⟩, ⟨some "function", some "vote"⟩,
      ⟨some "function", some "web"⟩]
    [⟨some "function", some "New_Answer"⟩, ⟨some "function", some "vote"⟩] true false
  exact ⟨h.1 ⟨some "function", some "vote"⟩ (by decide),
    h.2.1 ⟨some "function", some "New_Answer"⟩ (by decide),
    h.2.2 ⟨some "function", some "vote"⟩ (by decide) (by decide)⟩

/-- **C10**: the coordination-tool context filter never introduces tools —
every output tool is a member of the input — and every non-coordination
input tool is still present unchanged in the output. -/
theorem C10_coordination_filter_frame (current original : List Tool) (eav fin : Bool) :
    (∀ t ∈ filter_coordination_tools_for_context current original eav fin, t ∈ current) ∧
    (∀ t ∈ current, is_coordination_tool (t.name.getD "") = false →
      t ∈ filter_coordination_tools_for_context current original eav fin) := by
  constructor
  · exact fun t ht => (mem_filter_coordination t current original eav fin ht).1
  · intro t ht hnc
    by_cases hemp : (current.filter (fun x => is_coordination_tool (x.name.getD ""))).isEmpty
    · rw [filter_coordination_tools_for_context, if_pos hemp]
      exact ht
    · rw [filter_coordination_tools_for_context, if_neg hemp]
      exact List.mem_append.2 (Or.inl (List.mem_filter.2 ⟨ht, by simp [hnc]⟩))

/-- Witness for C10, fully instantiated on a concrete mixed tool list: the
surviving `web` tool came from the input, and being a non-coordination tool
it is still present in the output. -/
theorem C10_coordination_filter_frame_witness :
    (⟨some "function", some "web"⟩ : Tool) ∈
      ([⟨some "function", some "vote"⟩, ⟨some "function", some "web"⟩] : List Tool) ∧
    (⟨some "function", some "web"⟩ : Tool) ∈
      filter_coordination_tools_for_context
        [⟨some "function", some "vote"⟩, ⟨some "function", some "web"⟩] [] true false := by
  have h := C10_coordination_filter_frame
    [⟨some "function", some "vote"⟩, ⟨some "function", some "web"⟩] [] true false
  exact ⟨h.1 ⟨some "function", some "web"⟩ (by decide),
    h.2 ⟨some "function", some "web"⟩ (by decide) (by decide)⟩

/-- After the two strips, every remaining tool is neither `mcp`-typed nor
named after a registry key. -/
theorem strips_clean (functions : List String) (fp : ApiParams) :
    ∀ t ∈ (strip_registered functions (strip_mcp_typed fp)).tools.getD [],
      t.type ≠ some "mcp" ∧ ∀ n ∈ functions, t.name ≠ some n := by
  intro t ht
  rcases hfp : fp.tools with _ | ts
  · simp [strip_mcp_typed, strip_registered, hfp] at ht
  · simp only [strip_mcp_typed, strip_registered, hfp, Option.getD_some] at ht
    have h1 := List.mem_filter.1 ht
    have h2 := List.mem_filter.1 h1.1
    constructor
    · have := h2.2
      simpa using this
    · intro n hn heq
      have := h1.2
      simp [nameNotRegistered, heq] at this
      exact this hn

/-- The coordination step preserves any per-tool property of the current
tool list (it only drops coordination tools). -/
theorem apply_coordination_step_preserves (P : Tool → Prop) (fp : ApiParams)
    (imc : Bool) (orig : Option (List Tool)) (eav fin : Bool)
    (h : ∀ t ∈ fp.tools.getD [], P t) :
    ∀ t ∈ (apply_coordination_step fp imc orig eav fin).tools.getD [], P t := by
  intro t ht
  unfold apply_coordination_step at ht
  split_ifs at ht with hcond
  · simp only [Option.getD_some] at ht
    exact h t (mem_filter_coordination t _ _ eav fin ht).1
  · exact h t ht

/-- Re-attaching provider tools preserves a per-tool property that every
provider tool also enjoys. -/
theorem reattach_provider_tools_preserves (P : Tool → Prop) (fp : ApiParams)
    (provider_tools : List Tool)
    (h : ∀ t ∈ fp.tools.getD [], P t)
    (hprov : ∀ t ∈ provider_tools, P t) :
    ∀ t ∈ (reattach_provider_tools fp provider_tools).tools.getD [], P t := by
  intro t ht
  unfold reattach_provider_tools at ht
  split_ifs at ht with hcond
  · simp only [Option.getD_some] at ht
    rcases List.mem_append.1 ht with hcur | hded
    · exact h t hcur
    · exact hprov t (List.mem_filter.1 hded).1
  · exact h t ht

/-- **C3**: for every error handled by the fallback handler, the rebuilt
request parameters contain no tool with this layer's `"mcp"` type marker and
no tool named after a key of the functions registry, even after the
(non-tool-layer) provider tools are re-attached. -/
theorem C3_fallback_params_clean (functions : List String) (api_params : ApiParams)
    (provider_tools : List Tool) (imc fin : Bool) (orig : Option (List Tool))
    (eav : Bool)
    (hprov : ∀ t ∈ provider_tools, t.type ≠ some "mcp" ∧ ∀ n ∈ functions, t.name ≠ some n) :
    ∀ t ∈ (build_fallback_params functions api_params provider_tools imc fin orig
        eav).tools.getD [],
      t.type ≠ some "mcp" ∧ ∀ n ∈ functions, t.name ≠ some n := by
  unfold build_fallback_params
  exact reattach_provider_tools_preserves _ _ _
    (apply_coordination_step_preserves _ _ _ _ _ _ (strips_clean functions api_params))
    hprov

/-- Witness for C3, fully instantiated: with an `mcp`-typed tool and a
registry-named tool in the parameters and a provider tool re-attached, the
surviving unrelated tool is neither `mcp`-typed nor named `reg_tool`. -/
theorem C3_fallback_params_clean_witness :
    (⟨some "function", some "web"⟩ : Tool).type ≠ some "mcp" ∧
    (⟨some "function", some "web"⟩ : Tool).name ≠ some "reg_tool" := by
  have h := C3_fallback_params_clean ["reg_tool"]
    ⟨some [⟨some "mcp", some "srv"⟩, ⟨some "function", some "reg_tool"⟩,
      ⟨some "function", some "web"⟩]⟩
    [⟨some "web_search", some "provider"⟩] true false
    (some [⟨some "function", some "vote"⟩]) true
    (by decide)
    ⟨some "function", some "web"⟩
    (by decide)
  exact ⟨h.1, h.2 "reg_tool" (by decide)⟩

/-- **C6**: the fallback handler never re-raises (it is a total function in
this model): it yields exactly one `mcp_error` status chunk and one inline
content notice, followed — unchanged — by exactly the chunks of the fallback
stream called on the rebuilt parameters. -/
theorem C6_error_fallback_chunk_sequence (failures : Nat)
    (user_message error_text : String) (functions : List String)
    (api_params : ApiParams) (provider_tools : List Tool)
    (stream_func : ApiParams → List StreamChunk) (imc fin : Bool)
    (orig : Option (List Tool)) (eav : Bool) :
    (handle_mcp_error_and_fallback failures user_message error_text functions
        api_params provider_tools stream_func imc fin orig eav).2 =
      ({ type := "mcp_status", status := some "mcp_error",
         content := some user_message, source := some "mcp_error" } : StreamChunk) ::
      ({ type := "content", status := none,
         content := some ("\n⚠️  " ++ user_message ++ " (" ++ error_text ++
           "); continuing without MCP tools\n"), source := none } : StreamChunk) ::
      stream_func (build_fallback_params functions api_params provider_tools imc fin
        orig eav) ∧
    List.countP (fun c => c.status == some "mcp_error")
      ((handle_mcp_error_and_fallback failures user_message error_text functions
        api_params provider_tools stream_func imc fin orig eav).2.take 2) = 1 ∧
    List.countP (fun c => c.type == "content")
      ((handle_mcp_error_and_fallback failures user_message error_text functions
        api_params provider_tools stream_func imc fin orig eav).2.take 2) = 1 ∧
    (handle_mcp_error_and_fallback failures user_message error_text functions
        api_params provider_tools stream_func imc fin orig eav).2.drop 2 =
      stream_func (build_fallback_params functions api_params provider_tools imc fin
        orig eav) := by
  refine ⟨rfl, ?_, ?_, rfl⟩ <;> simp [handle_mcp_error_and_fallback]

/-- **C5**: a captured batch containing at least one name absent from the
functions registry makes the engine execute none of the captured calls
(empty manager trace) and delegate the entire turn to the fallback streaming
callback; without a fallback callback it yields a single `done` chunk. -/
theorem C5_unknown_name_delegates_turn {J : Type} (env : EngineEnv J)
    (fuel depth : Nat) (st : EngSt) (messages : List Msg) (captured : List FCall)
    (h : ∃ c ∈ captured, env.functions.contains c.name = false) :
    engineRun env (fuel + 1) depth st messages captured =
      some { st := st,
             chunks :=
               match env.fallback with
               | some fb =>
                 fb messages (captured.filter (fun c => !(env.functions.contains c.name)))
               | none => [doneChunk],
             trace := [] } := by
  obtain ⟨c, hc, hname⟩ := h
  have hemp : captured.isEmpty = false := by
    cases captured with
    | nil => cases hc
    | cons a l => rfl
  have hmemf : c ∈ captured.filter (fun c => !(env.functions.contains c.name)) :=
    List.mem_filter.2 ⟨hc, by rw [hname]; rfl⟩
  have hnm : (captured.filter (fun c => !(env.functions.contains c.name))).isEmpty = false := by
    cases hfl : captured.filter (fun c => !(env.functions.contains c.name)) with
    | nil => rw [hfl] at hmemf; cases hmemf
    | cons a l => rfl
  have hex : ∃ x ∈ captured, x.name ∉ env.functions :=
    ⟨c, hc, by simpa using hname⟩
  rcases hfb : env.fallback with _ | fb <;>
    simp [engineRun, enginePhase1, hemp, hnm, hfb, hex]

/-- Witness for C5 at the concrete engine environment: the batch contains the
unregistered name `ghost`, so the turn is delegated to the fallback callback
with nothing executed. -/
theorem C5_unknown_name_delegates_turn_witness :
    engineRun envEngine 1 0 {} [] [⟨"id1", "ghost", "ok"⟩] =
      some { st := {},
             chunks := [{ type := "fallback_marker", content := some "delegated" }],
             trace := [] } := by
  have h := C5_unknown_name_delegates_turn envEngine 0 0 {} [] [⟨"id1", "ghost", "ok"⟩]
    ⟨⟨"id1", "ghost", "ok"⟩, by decide, by decide⟩
  simpa [envEngine] using h

/-- The manager-invocation trace of one call is independent of the history. -/
theorem perCallExec_trace_eq {J : Type} (env : EngineEnv J) (c : FCall)
    (msgs : List Msg) : (perCallExec env c msgs).trace = retryTrace env c := by
  rcases hx : execute_mcp_function_with_retry env.parse env.mgr c.name c.arguments with
    _ | ⟨r, p, eo, mc⟩
  · simp [perCallExec, retryTrace, hx]
  · by_cases hpre : "Error:".isPrefixOf r <;>
      simp [perCallExec, retryTrace, hx, hpre]

/-- The manager-invocation trace of the whole captured batch, per call. -/
def batchTrace {J : Type} (env : EngineEnv J) : List FCall → List String
  | [] => []
  | c :: rest =>
    (if env.functions.contains c.name then retryTrace env c else []) ++ batchTrace env rest

/-- The execution loop's manager trace equals the per-call trace and does not
depend on the incoming history. -/
theorem execBatch_trace_eq {J : Type} (env : EngineEnv J) (calls : List FCall)
    (msgs : List Msg) : (execBatch env calls msgs).trace = batchTrace env calls := by
  induction calls generalizing msgs with
  | nil => rfl
  | cons c rest ih =>
    by_cases hc : c.name ∈ env.functions <;>
      simp [execBatch, batchTrace, hc, ih, perCallExec_trace_eq]

/-- `batchTrace` distributes over list append. -/
theorem batchTrace_append {J : Type} (env : EngineEnv J) (l1 l2 : List FCall) :
    batchTrace env (l1 ++ l2) = batchTrace env l1 ++ batchTrace env l2 := by
  induction l1 with
  | nil => rfl
  | cons c rest ih => simp [batchTrace, ih]

/-- **C9**: a call whose argument payload fails JSON parsing yields the
structured `"Error: Invalid JSON arguments"` result paired with the error
object, with the execution manager never invoked (hence no retry); and
inside a captured batch such a call contributes nothing to the
manager-invocation trace while every other call proceeds exactly as if the
malformed call were absent, whatever the history. -/
theorem C9_invalid_json_no_retry {J : Type} (parse : String → Except String J)
    (mgr : String → J → MgrResult) (name args e : String)
    (hparse : parse args = .error e) :
    execute_mcp_function_with_retry parse mgr name args =
      .res ("Error: Invalid JSON arguments: " ++ e)
        ("Error: Invalid JSON arguments: " ++ e) true false ∧
    ∀ (env : EngineEnv J) (pre post : List FCall) (msgs msgs' : List Msg)
      (cid : String), env.parse = parse → env.mgr = mgr →
      (execBatch env (pre ++ ⟨cid, name, args⟩ :: post) msgs).trace =
        (execBatch env (pre ++ post) msgs').trace := by
  constructor
  · simp [execute_mcp_function_with_retry, hparse]
  · intro env pre post msgs msgs' cid hp hm
    rw [execBatch_trace_eq, execBatch_trace_eq, batchTrace_append, batchTrace_append]
    have hbad : retryTrace env ⟨cid, name, args⟩ = [] := by
      simp [retryTrace, execute_mcp_function_with_retry, hp, hparse]
    simp [batchTrace, hbad]

/-- Witness for C9: the concrete parser rejects `"nope"`, the malformed call
is reported without reaching the manager, and the well-formed `lookup` call
in the same batch is still executed. -/
theorem C9_invalid_json_no_retry_witness :
    execute_mcp_function_with_retry envEngine.parse envEngine.mgr "lookup" "nope" =
      .res ("Error: Invalid JSON arguments: " ++ "bad")
        ("Error: Invalid JSON arguments: " ++ "bad") true false ∧
    (execBatch envEngine
        ([] ++ (⟨"id1", "lookup", "nope"⟩ : FCall) :: [⟨"id2", "lookup", "ok"⟩])
        []).trace =
      (execBatch envEngine ([] ++ [(⟨"id2", "lookup", "ok"⟩ : FCall)]) []).trace := by
  have h := C9_invalid_json_no_retry envEngine.parse envEngine.mgr "lookup" "nope" "bad" rfl
  exact ⟨h.1, h.2 envEngine [] [⟨"id2", "lookup", "ok"⟩] [] [] "id1" rfl rfl⟩

/-- Every chunk yielded by the processing of one captured call is an
`mcp_status` chunk. -/
theorem perCallExec_chunks_type {J : Type} (env : EngineEnv J) (c : FCall)
    (msgs : List Msg) :
    ∀ ch ∈ (perCallExec env c msgs).chunks, ch.type = "mcp_status" := by
  intro ch hch
  rcases hx : execute_mcp_function_with_retry env.parse env.mgr c.name c.arguments with
    _ | ⟨r, p, eo, mc⟩
  · simp [perCallExec, hx] at hch
    rw [hch]
  · by_cases hpre : "Error:".isPrefixOf r <;> simp [perCallExec, hx, hpre] at hch
    · rw [hch]
    · rcases hch with rfl | rfl | rfl | rfl <;> rfl

/-- Every chunk yielded by the captured-call execution loop is an
`mcp_status` chunk. -/
theorem execBatch_chunks_type {J : Type} (env : EngineEnv J) (calls : List FCall)
    (msgs : List Msg) :
    ∀ ch ∈ (execBatch env calls msgs).chunks, ch.type = "mcp_status" := by
  induction calls generalizing msgs with
  | nil => intro ch hch; simp [execBatch] at hch
  | cons c rest ih =>
    intro ch hch
    by_cases hc : c.name ∈ env.functions <;> simp [execBatch, hc] at hch
    · rcases hch with h1 | h2
      · exact perCallExec_chunks_type env c msgs ch h1
      · exact ih _ ch h2
    · exact ih _ ch hch

/-- The terminal `done` marker is never among the execution loop's chunks. -/
theorem doneChunk_not_mem_execBatch {J : Type} (env : EngineEnv J)
    (calls : List FCall) (msgs : List Msg) :
    doneChunk ∉ (execBatch env calls msgs).chunks := by
  intro h
  have := execBatch_chunks_type env calls msgs doneChunk h
  simp [doneChunk] at this

/-- Prepending `done`-free chunks preserves `terminatesWithDone`. -/
theorem terminatesWithDone_append (p l : List StreamChunk)
    (hp : doneChunk ∉ p) (hl : terminatesWithDone l) :
    terminatesWithDone (p ++ l) := by
  obtain ⟨pre, rfl, hpre⟩ := hl
  exact ⟨p ++ pre, by rw [List.append_assoc], by simp [List.mem_append, hp, hpre]⟩

/-- `[done]` terminates with a single `done`. -/
theorem terminatesWithDone_done : terminatesWithDone [doneChunk] :=
  ⟨[], rfl, by simp⟩

/-- `[blocked, done]` terminates with a single `done`. -/
theorem terminatesWithDone_blocked : terminatesWithDone [blockedChunk, doneChunk] :=
  ⟨[blockedChunk], rfl, by decide⟩

/-- `[session_complete, done]` terminates with a single `done`. -/
theorem terminatesWithDone_sessionComplete :
    terminatesWithDone [sessionCompleteChunk, doneChunk] :=
  ⟨[sessionCompleteChunk], rfl, by decide⟩

/-- Every early (`Sum.inl`) result of phase 1 carries either the fallback
stream's chunks verbatim or one of the two self-terminated chunk lists. -/
theorem enginePhase1_inl_chunks {J : Type} (env : EngineEnv J) (depth : Nat)
    (st : EngSt) (messages : List Msg) (captured : List FCall) (r : EngOut)
    (h : enginePhase1 env depth st messages captured = .inl r) :
    (∃ fb, env.fallback = some fb ∧
      r.chunks = fb messages (captured.filter (fun c => !(env.functions.contains c.name)))) ∨
    r.chunks = [doneChunk] ∨ r.chunks = [blockedChunk, doneChunk] := by
  by_cases hemp : captured.isEmpty
  · simp [enginePhase1, hemp] at h
  · rcases hfb : env.fallback with _ | fb <;>
    by_cases hnm : ∃ x ∈ captured, x.name ∉ env.functions <;>
    by_cases hcb : env.cbEnabled && env.cbFilterEmpty depth <;>
    by_cases hnot : st.cbNotified <;>
    simp [enginePhase1, hemp, hfb, hnm, hcb, hnot] at h <;>
    simp [← h, hfb]

/-- Every streaming (`Sum.inr`) result of phase 1 hands over a `done`-free
chunk prefix. -/
theorem enginePhase1_inr_chunks {J : Type} (env : EngineEnv J) (depth : Nat)
    (st : EngSt) (messages : List Msg) (captured : List FCall) (st1 : EngSt)
    (pre : List StreamChunk) (tr : List String) (m1 : List Msg)
    (h : enginePhase1 env depth st messages captured = .inr (st1, pre, tr, m1)) :
    doneChunk ∉ pre := by
  by_cases hemp : captured.isEmpty
  · simp [enginePhase1, hemp] at h
    rcases h with ⟨-, h2, -, -⟩
    subst h2
    simp
  · rcases hfb : env.fallback with _ | fb <;>
    by_cases hnm : ∃ x ∈ captured, x.name ∉ env.functions <;>
    by_cases hcb : env.cbEnabled && env.cbFilterEmpty depth <;>
    by_cases hnot : st.cbNotified <;>
    simp [enginePhase1, hemp, hfb, hnm, hcb, hnot] at h <;>
    · rcases h with ⟨-, h2, -, -⟩
      subst h2
      exact doneChunk_not_mem_execBatch env captured messages

/-- **C8**: every terminating run of the streaming recursion engine yields a
chunk list ending in the terminal `done` marker with no chunk after it —
including when the backend stream ends without an explicit completion signal
— provided the backend-processed chunks never impersonate the terminal
marker and any fallback stream obeys the same terminal-`done` contract. -/
theorem C8_stream_ends_with_done {J : Type} (fuel : Nat) :
    ∀ (env : EngineEnv J) (depth : Nat) (st : EngSt) (messages : List Msg)
      (captured : List FCall) (out : EngOut),
      (∀ fb m c, env.fallback = some fb → terminatesWithDone (fb m c)) →
      (∀ d m, doneChunk ∉ (env.round d m).forwarded) →
      engineRun env fuel depth st messages captured = some out →
      terminatesWithDone out.chunks := by
  induction fuel with
  | zero =>
    intro env depth st messages captured out hfb hrd hrun
    simp [engineRun] at hrun
  | succ n ih =>
    intro env depth st messages captured out hfb hrd hrun
    rw [engineRun] at hrun
    rcases hph : enginePhase1 env depth st messages captured with r | ⟨st1, pre, tr, m1⟩
    · rw [hph] at hrun
      simp at hrun
      rw [← hrun]
      rcases enginePhase1_inl_chunks env depth st messages captured r hph with
        ⟨fb, hfbeq, hch⟩ | hch | hch
      · rw [hch]; exact hfb fb messages _ hfbeq
      · rw [hch]; exact terminatesWithDone_done
      · rw [hch]; exact terminatesWithDone_blocked
    · rw [hph] at hrun
      have hpre : doneChunk ∉ pre :=
        enginePhase1_inr_chunks env depth st messages captured st1 pre tr m1 hph
      by_cases hcb : env.callbacksProvided
      · simp only [hcb, Bool.not_true, Bool.false_eq_true, if_false] at hrun
        by_cases hcomp : (env.round depth m1).completed
        · by_cases hcap : (env.round depth m1).captured.isEmpty
          · simp [hcomp, hcap] at hrun
            rw [← hrun]
            refine terminatesWithDone_append pre _ hpre ?_
            refine terminatesWithDone_append _ _ (hrd depth m1) ?_
            exact terminatesWithDone_sessionComplete
          · simp only [hcomp, hcap, if_true, Bool.false_eq_true, if_false] at hrun
            split at hrun
            · exact Option.noConfusion hrun
            · rename_i r heq
              simp at hrun
              have hiwd := ih
                { functions := env.functions, parse := env.parse, mgr := env.mgr,
                  format := env.format, cbEnabled := env.cbEnabled,
                  cbFilterEmpty := env.cbFilterEmpty, callbacksProvided := true,
                  fallback := none, round := env.round, trim := env.trim }
                (depth + 1) st1 m1 (env.round depth m1).captured r
                (fun fb m c hf => Option.noConfusion hf) hrd heq
              rw [← hrun]
              refine terminatesWithDone_append pre _ hpre ?_
              exact terminatesWithDone_append _ _ (hrd depth m1) hiwd
        · simp [hcomp] at hrun
          rw [← hrun]
          refine terminatesWithDone_append pre _ hpre ?_
          exact terminatesWithDone_append _ _ (hrd depth m1) terminatesWithDone_done
      · simp [hcb] at hrun
        rw [← hrun]
        exact terminatesWithDone_append pre _ hpre terminatesWithDone_done

/-- Witness for C8: a concrete run (no captured calls, backend completes
immediately, no fallback callback) terminates with the session-complete
chunk followed by the single terminal `done`. -/
theorem C8_stream_ends_with_done_witness :
    terminatesWithDone [sessionCompleteChunk, doneChunk] := by
  have h := C8_stream_ends_with_done (J := Unit) 1 envEngineNoFb 0 {} [] []
    { st := {}, chunks := [sessionCompleteChunk, doneChunk], trace := [] }
    (fun fb m c hf => Option.noConfusion hf)
    (fun d m => by simp [envEngineNoFb, envEngine])
    rfl
  exact h

end MCPHandlerModel
